import Mathlib

/-
Verification of the webhook-echo server (src/main.go) against its
natural-language specification.

The program is an HTTP facade over a SQLite table `webhook_params`:

  * `recordWebhookHandler` reads the request body, unmarshals it into
    `WebhookParams` (fields `event`, `data`, `version`), re-marshals the
    payload map and INSERTs a row `(id, event_type, payload, version)`;
    it echoes the raw body back with status 200, or answers 400
    "Invalid JSON" when unmarshalling fails.
  * `queryWebhookHandler` builds a SQL string
    `SELECT ... WHERE event_type = ?` plus, for each URL query
    parameter, a clause `AND CAST(json_extract(payload, '$.KEY') AS
    TEXT) = ?` (the key interpolated verbatim by fmt.Sprintf), appends
    `ORDER BY id`, runs it, and decodes each returned row back into
    `WebhookParams`, skipping rows whose scan or payload unmarshal
    fails; the collected slice is JSON-encoded as the response.

This file shallowly embeds that pipeline.

JSON fragment.  The embedded JSON values are those Go's
`encoding/json` decodes into `any`: strings (with the standard
escapes, including \uXXXX and surrogate pairs), numbers (decimal
numerals; the embedding carries them as exact decimals, faithful to
the float64 round trip on numerals within float64 precision and the
plain-format range — numerals needing exponent output, beyond ~15
significant digits, out of float64 range, and negative zero are
outside the embedding, as is Unicode-simple-folding of non-ASCII
member names), booleans, null, and nested arrays/objects.

SQL fragment.  The semantics of the generated query is embedded for
filter keys that are dot-separated identifier paths (`pathSegsOf`),
which SQLite's JSON path grammar interprets as (possibly nested)
object member selection and which leave the SQL text well-formed with
one placeholder per clause.  For any other key the interpolated text
can change the SQL itself (placeholder counts, extra clauses, syntax
errors), so the row-level model `sqlExec` deliberately returns `none`
(outside the modeled fragment) and asserts nothing; those keys are
analysed at the text level (`buildQuerySQL`, `countPlaceholders`),
where the generated SQL and its bound-argument count are exact.
-/

namespace WebhookEcho

/-- A JSON value as decoded by Go's `encoding/json` into `any`.
Numbers are split by integrality, mirroring what `json.Marshal`
prints after the float64 round trip: `num n` is an integral number
(rendered with no point or exponent), `dec m e` (with `e < 0` and `m`
not divisible by 10) is the non-integral decimal `m * 10^e`. -/
inductive Json where
  | str (s : String)
  | num (n : Int)
  | dec (m : Int) (e : Int)
  | bool (b : Bool)
  | null
  | arr (elems : List Json)
  | obj (fields : List (String × Json))

/-- Lowercase hex digit, as Go's encoder writes in \u00XX escapes. -/
def hexDigit (n : Nat) : Char :=
  if n < 10 then Char.ofNat (48 + n) else Char.ofNat (87 + n)

/-- One character as `json.Marshal` emits it inside a string literal:
quote, backslash, newline, carriage return and tab get short escapes;
other control characters get \u00XX; the encoder's default HTML
escaping turns <, >, & into <, >, & and also escapes
U+2028/U+2029. -/
def escChar (c : Char) : String :=
  if c = '\x22' then "\\\x22"
  else if c = '\\' then "\\\\"
  else if c = '\n' then "\\n"
  else if c = '\r' then "\\r"
  else if c = '\t' then "\\t"
  else if c.toNat < 32 then
    "\\u00" ++ String.singleton (hexDigit (c.toNat / 16))
      ++ String.singleton (hexDigit (c.toNat % 16))
  else if c = '<' then "\\u003c"
  else if c = '>' then "\\u003e"
  else if c = '&' then "\\u0026"
  else if c.toNat = 8232 then "\\u2028"
  else if c.toNat = 8233 then "\\u2029"
  else String.singleton c

def escapeString (s : String) : String :=
  String.join (s.data.map escChar)

/-- The text of the non-integral decimal `m * 10^e` (`e < 0`, `m` not
divisible by 10), as both Go's marshaller (plain 'f' format, used for
magnitudes in [1e-6, 1e21)) and SQLite's REAL-to-TEXT cast print it:
digits with one decimal point, no trailing zeros. -/
def renderDec (m e : Int) : String :=
  let ds := (toString m.natAbs).data
  let k := (-e).toNat
  let sign := if m < 0 then "-" else ""
  if ds.length > k then
    sign ++ (ds.take (ds.length - k)).asString ++ "." ++ (ds.drop (ds.length - k)).asString
  else
    sign ++ "0." ++ (List.replicate (k - ds.length) '0').asString ++ ds.asString

mutual

/-- Rendering of a JSON value to its marshalled text, as
`json.Marshal` produces it (minified, object fields in list order; the
unmarshaller below already stores object fields sorted by key, which is
the order `json.Marshal` uses for Go maps). -/
def renderJson : Json → String
  | .str s => "\x22" ++ escapeString s ++ "\x22"
  | .num n => toString n
  | .dec m e => renderDec m e
  | .bool b => cond b "true" "false"
  | .null => "null"
  | .arr xs => "[" ++ renderElems xs ++ "]"
  | .obj fs => "\x7b" ++ renderFields fs ++ "\x7d"

def renderElems : List Json → String
  | [] => ""
  | [x] => renderJson x
  | x :: y :: xs => renderJson x ++ "," ++ renderElems (y :: xs)

def renderFields : List (String × Json) → String
  | [] => ""
  | [(k, v)] => "\x22" ++ escapeString k ++ "\x22:" ++ renderJson v
  | (k, v) :: f :: fs =>
      "\x22" ++ escapeString k ++ "\x22:" ++ renderJson v ++ "," ++ renderFields (f :: fs)

end

/-- The TEXT that `CAST(json_extract(payload, path) AS TEXT)` produces
once `json_extract` has selected this (non-null) JSON value: SQLite
returns a JSON string as a TEXT value (the cast is the identity), a
JSON integer as an INTEGER (cast: its decimal numeral), a non-integral
number as a REAL (cast: its decimal text), a JSON boolean as INTEGER 1
or 0 (cast: "1"/"0"), and a nested object/array as its minified JSON
text.  A JSON null extracts to SQL NULL, which never reaches this cast
(see `sqlExtract`); that branch is given an arbitrary value. -/
def castJsonText : Json → String
  | .str s => s
  | .num n => toString n
  | .dec m e => renderDec m e
  | .bool b => cond b "1" "0"
  | .null => ""
  | .arr xs => renderJson (.arr xs)
  | .obj fs => renderJson (.obj fs)

/-- First-match association lookup on a JSON object's field list
(field keys are unique after `canonFields`). -/
def lookupField : List (String × Json) → String → Option Json
  | [], _ => none
  | (k, v) :: fs, key => if k = key then some v else lookupField fs key

/-- JSON whitespace, as both Go's decoder and SQLite accept it. -/
def isWs (c : Char) : Bool :=
  c = ' ' || c = '\t' || c = '\n' || c = '\r'

def skipWs : List Char → List Char
  | [] => []
  | c :: cs => if isWs c then skipWs cs else c :: cs

def hexVal (c : Char) : Option Nat :=
  if c.isDigit then some (c.toNat - 48)
  else if 'a' ≤ c ∧ c ≤ 'f' then some (c.toNat - 87)
  else if 'A' ≤ c ∧ c ≤ 'F' then some (c.toNat - 55)
  else none

def hex4 (a b c d : Char) : Option Nat :=
  match hexVal a, hexVal b, hexVal c, hexVal d with
  | some x, some y, some z, some w => some (((x * 16 + y) * 16 + z) * 16 + w)
  | _, _, _, _ => none

/-- The single-character escapes of a JSON string. -/
def escCode (c : Char) : Option Char :=
  if c = '\x22' then some '\x22'
  else if c = '\\' then some '\\'
  else if c = '/' then some '/'
  else if c = 'b' then some '\x08'
  else if c = 'f' then some '\x0c'
  else if c = 'n' then some '\n'
  else if c = 'r' then some '\r'
  else if c = 't' then some '\t'
  else none

/-- Body of a JSON string after the opening quote, as Go's decoder
reads it: raw control characters are rejected, the short escapes and
\uXXXX are decoded, a surrogate pair yields the combined scalar and a
lone surrogate becomes U+FFFD (as `unicode.ReplacementChar` does).
Fuel-indexed (each step consumes at least one character, so the
callers' fuel of length + 1 always suffices). -/
def parseStringBody : Nat → List Char → Option (String × List Char)
  | 0, _ => none
  | Nat.succ fuel, cs =>
      match cs with
      | [] => none
      | c :: cs1 =>
          if c = '\x22' then some ("", cs1)
          else if c = '\\' then
            match cs1 with
            | [] => none
            | e :: cs2 =>
                if e = 'u' then
                  match cs2 with
                  | a :: b :: c2 :: d :: cs3 =>
                      match hex4 a b c2 d with
                      | none => none
                      | some n =>
                          if 55296 ≤ n ∧ n ≤ 56319 then
                            match cs3 with
                            | '\\' :: 'u' :: a2 :: b2 :: c3 :: d2 :: cs4 =>
                                match hex4 a2 b2 c3 d2 with
                                | some n2 =>
                                    if 56320 ≤ n2 ∧ n2 ≤ 57343 then
                                      (parseStringBody fuel cs4).map fun r =>
                                        (String.singleton
                                          (Char.ofNat (65536 + (n - 55296) * 1024 + (n2 - 56320)))
                                          ++ r.1, r.2)
                                    else
                                      (parseStringBody fuel
                                        ('\\' :: 'u' :: a2 :: b2 :: c3 :: d2 :: cs4)).map fun r =>
                                          (String.singleton (Char.ofNat 65533) ++ r.1, r.2)
                                | none =>
                                    (parseStringBody fuel
                                      ('\\' :: 'u' :: a2 :: b2 :: c3 :: d2 :: cs4)).map fun r =>
                                        (String.singleton (Char.ofNat 65533) ++ r.1, r.2)
                            | _ =>
                                (parseStringBody fuel cs3).map fun r =>
                                  (String.singleton (Char.ofNat 65533) ++ r.1, r.2)
                          else if 56320 ≤ n ∧ n ≤ 57343 then
                            (parseStringBody fuel cs3).map fun r =>
                              (String.singleton (Char.ofNat 65533) ++ r.1, r.2)
                          else
                            (parseStringBody fuel cs3).map fun r =>
                              (String.singleton (Char.ofNat n) ++ r.1, r.2)
                  | _ => none
                else
                  match escCode e with
                  | some ec =>
                      (parseStringBody fuel cs2).map fun r => (String.singleton ec ++ r.1, r.2)
                  | none => none
          else if c.toNat < 32 then none
          else (parseStringBody fuel cs1).map fun r => (String.singleton c ++ r.1, r.2)

/-- Split off a maximal run of decimal digits. -/
def stripDigits : List Char → List Char × List Char
  | [] => ([], [])
  | c :: cs =>
      if c.isDigit then
        let r := stripDigits cs
        (c :: r.1, r.2)
      else ([], c :: cs)

def digitsToNat (ds : List Char) : Nat :=
  ds.foldl (fun a c => a * 10 + (c.toNat - 48)) 0

/-- Remove factors of ten from the mantissa, shifting them into the
exponent (fuel-indexed by the mantissa itself, which bounds the number
of halvings-by-ten). -/
def stripTensFuel : Nat → Nat → Int → Nat × Int
  | 0, m, e => (m, e)
  | Nat.succ f, m, e =>
      if m ≠ 0 ∧ m % 10 = 0 then stripTensFuel f (m / 10) (e + 1) else (m, e)

def stripTens (m : Nat) (e : Int) : Nat × Int :=
  stripTensFuel m m e

/-- The JSON value of the numeral `±mant * 10^e`, normalized the way
the float64 round trip normalizes it on the embedded fragment: an
integral value becomes `num`, a non-integral one `dec` with the
trailing zeros stripped (so 1.50 and 1.5 decode equal, and 2.0
marshals back to "2" as Go prints it). -/
def normNum (neg : Bool) (mant : Nat) (e : Int) : Json :=
  if mant = 0 then Json.num 0
  else
    let r := stripTens mant e
    let m : Int := if neg then -(r.1 : Int) else (r.1 : Int)
    if 0 ≤ r.2 then Json.num (m * 10 ^ r.2.toNat)
    else Json.dec m r.2

/-- A JSON numeral as RFC 8259 defines it and Go's decoder accepts
it: optional minus, integer part with no leading zero, optional
fraction, optional exponent. -/
def parseNumber (cs0 : List Char) : Option (Json × List Char) :=
  let sgn : Bool × List Char :=
    match cs0 with
    | c :: rest => if c = '-' then (true, rest) else (false, cs0)
    | [] => (false, cs0)
  match sgn.2 with
  | [] => none
  | c :: _ =>
      if c.isDigit then
        let ip := stripDigits sgn.2
        match ip.1 with
        | '0' :: _ :: _ => none
        | _ =>
            let fr : Option (List Char) × List Char :=
              match ip.2 with
              | '.' :: r =>
                  let f := stripDigits r
                  (some f.1, f.2)
              | r => (none, r)
            match fr.1 with
            | some [] => none
            | _ =>
                let fracDs := fr.1.getD []
                let ex : Option Int × List Char :=
                  match fr.2 with
                  | e :: r =>
                      if e = 'e' || e = 'E' then
                        match r with
                        | '+' :: r2 =>
                            let ed := stripDigits r2
                            (if ed.1 = [] then none else some ((digitsToNat ed.1 : Int)), ed.2)
                        | '-' :: r2 =>
                            let ed := stripDigits r2
                            (if ed.1 = [] then none else some (-(digitsToNat ed.1 : Int)), ed.2)
                        | r2 =>
                            let ed := stripDigits r2
                            (if ed.1 = [] then none else some ((digitsToNat ed.1 : Int)), ed.2)
                      else (some 0, e :: r)
                  | [] => (some 0, [])
                match ex.1 with
                | none => none
                | some expv =>
                    some (normNum sgn.1 (digitsToNat (ip.1 ++ fracDs))
                      (expv - (fracDs.length : Int)), ex.2)
      else none

/-- Match a literal keyword character by character. -/
def dropLit : List Char → List Char → Option (List Char)
  | [], cs => some cs
  | l :: ls, c :: cs => if c = l then dropLit ls cs else none
  | _ :: _, [] => none

mutual

/-- Recursive-descent JSON parser (fuel-indexed; `parseJson` supplies
enough fuel for any input, since every recursive step consumes at least
one character). -/
def parseVal : Nat → List Char → Option (Json × List Char)
  | 0, _ => none
  | Nat.succ fuel, cs =>
      match skipWs cs with
      | [] => none
      | c :: cs' =>
          if c = '\x22' then
            match parseStringBody (cs'.length + 1) cs' with
            | some (s, rest) => some (.str s, rest)
            | none => none
          else if c = '\x7b' then
            match skipWs cs' with
            | '\x7d' :: rest => some (.obj [], rest)
            | cs2 =>
                match parseField fuel cs2 with
                | some (kv, rest) =>
                    match parseFieldsMore fuel rest with
                    | some (kvs, rest2) => some (.obj (kv :: kvs), rest2)
                    | none => none
                | none => none
          else if c = '[' then
            match skipWs cs' with
            | ']' :: rest => some (.arr [], rest)
            | cs2 =>
                match parseVal fuel cs2 with
                | some (v, rest) =>
                    match parseElemsMore fuel rest with
                    | some (vs, rest2) => some (.arr (v :: vs), rest2)
                    | none => none
                | none => none
          else if c = 't' then
            match dropLit ['r', 'u', 'e'] cs' with
            | some rest => some (.bool true, rest)
            | none => none
          else if c = 'f' then
            match dropLit ['a', 'l', 's', 'e'] cs' with
            | some rest => some (.bool false, rest)
            | none => none
          else if c = 'n' then
            match dropLit ['u', 'l', 'l'] cs' with
            | some rest => some (.null, rest)
            | none => none
          else parseNumber (c :: cs')

/-- Further array elements: `, value` repeated, then `]`. -/
def parseElemsMore : Nat → List Char → Option (List Json × List Char)
  | 0, _ => none
  | Nat.succ fuel, cs =>
      match skipWs cs with
      | ',' :: rest =>
          match parseVal fuel rest with
          | some (v, rest2) =>
              match parseElemsMore fuel rest2 with
              | some (vs, rest3) => some (v :: vs, rest3)
              | none => none
          | none => none
      | ']' :: rest => some ([], rest)
      | _ => none

/-- One `"key": value` object member. -/
def parseField : Nat → List Char → Option ((String × Json) × List Char)
  | 0, _ => none
  | Nat.succ fuel, cs =>
      match skipWs cs with
      | c :: cs' =>
          if c = '\x22' then
            match parseStringBody (cs'.length + 1) cs' with
            | some (k, rest) =>
                match skipWs rest with
                | ':' :: rest2 =>
                    match parseVal fuel rest2 with
                    | some (v, rest3) => some ((k, v), rest3)
                    | none => none
                | _ => none
            | none => none
          else none
      | [] => none

/-- Further object members: `, member` repeated, then the closing
brace. -/
def parseFieldsMore : Nat → List Char → Option (List (String × Json) × List Char)
  | 0, _ => none
  | Nat.succ fuel, cs =>
      match skipWs cs with
      | ',' :: rest =>
          match parseField fuel rest with
          | some (kv, rest2) =>
              match parseFieldsMore fuel rest2 with
              | some (kvs, rest3) => some (kv :: kvs, rest3)
              | none => none
          | none => none
      | '\x7d' :: rest => some ([], rest)
      | _ => none

end

/-- Parse a complete JSON document, requiring only trailing whitespace
after the value, as `json.Unmarshal` and SQLite's JSON functions do. -/
def parseJson (s : String) : Option Json :=
  match parseVal (s.length + 1) s.data with
  | some (v, rest) => if skipWs rest = [] then some v else none
  | none => none

/-- Insert a field into a key-sorted field list, keeping the already
present binding on a duplicate key (used right-to-left, so the later,
winning duplicate is already in). -/
def insertFieldKeep : List (String × Json) → String × Json → List (String × Json)
  | [], kv => [kv]
  | (k, v) :: fs, kv =>
      if kv.1 < k then kv :: (k, v) :: fs
      else if kv.1 = k then (k, v) :: fs
      else (k, v) :: insertFieldKeep fs kv

mutual

/-- Canonicalize a decoded JSON value the way a round trip through a
Go `map[string]any` does: object fields are deduplicated (last
occurrence wins, as `json.Unmarshal` overwrites map entries) and sorted
by key (as `json.Marshal` emits map keys), recursively. -/
def canonJson : Json → Json
  | .str s => .str s
  | .num n => .num n
  | .dec m e => .dec m e
  | .bool b => .bool b
  | .null => .null
  | .arr xs => .arr (canonElems xs)
  | .obj fs => .obj (canonFields fs)

def canonElems : List Json → List Json
  | [] => []
  | x :: xs => canonJson x :: canonElems xs

def canonFields : List (String × Json) → List (String × Json)
  | [] => []
  | (k, v) :: fs => insertFieldKeep (canonFields fs) (k, canonJson v)

end

/-- Go's `WebhookParams` struct from src/main.go: `EventType` (tag
"event"), `Payload` (tag "data", a `map[string]any`; `none` models the
nil map), `Version` (tag "version").  Payload field lists are kept in
the canonical (key-sorted, deduplicated) form the Go map round trip
produces. -/
structure WebhookParams where
  eventType : String
  payload : Option (List (String × Json))
  version : String

def lowerChar (c : Char) : Char :=
  if 'A' ≤ c ∧ c ≤ 'Z' then Char.ofNat (c.toNat + 32) else c

/-- `encoding/json`'s member-name matching: an exact tag match or,
failing that, a case-insensitive one (modelled by ASCII folding; the
embedded member names are ASCII). -/
def foldEq (a b : String) : Bool :=
  a.data.map lowerChar == b.data.map lowerChar

/-- `json.Unmarshal` of one top-level object member into the
`WebhookParams` struct: a member whose name matches `event` or
`version` (exactly or case-insensitively, as Go matches field names)
must be a JSON string, one matching `data` must be an object (decoded
into a map) or null (leaving the map nil); any other member name is
ignored; a type mismatch fails the unmarshal. -/
def applyJsonField (wp : WebhookParams) (k : String) (v : Json) : Option WebhookParams :=
  if foldEq k "event" then
    match v with
    | .str s => some { wp with eventType := s }
    | _ => none
  else if foldEq k "data" then
    match v with
    | .obj fs => some { wp with payload := some (canonFields fs) }
    | .null => some { wp with payload := none }
    | _ => none
  else if foldEq k "version" then
    match v with
    | .str s => some { wp with version := s }
    | _ => none
  else some wp

def applyJsonFields : WebhookParams → List (String × Json) → Option WebhookParams
  | wp, [] => some wp
  | wp, (k, v) :: fs =>
      match applyJsonField wp k v with
      | some wp' => applyJsonFields wp' fs
      | none => none

/-- `json.Unmarshal(body, &res)` for `res : WebhookParams`
(src/main.go line 32): the body must be a JSON object (members applied
in order, later duplicates overwriting) or JSON null (leaving the zero
value); any other document is an unmarshal error. -/
def unmarshalWebhookParams (body : String) : Option WebhookParams :=
  match parseJson body with
  | some (.obj fs) => applyJsonFields ⟨"", none, ""⟩ fs
  | some .null => some ⟨"", none, ""⟩
  | _ => none

/-- `string(payloadJSON)` for `payloadJSON, _ := json.Marshal(res.Payload)`
(src/main.go line 37): a nil map marshals to "null", otherwise to the
object text with keys in sorted order. -/
def renderPayload : Option (List (String × Json)) → String
  | none => "null"
  | some fs => renderJson (.obj fs)

/-- One row of the SQLite table `webhook_params`
(id INTEGER PRIMARY KEY, event_type TEXT NOT NULL, payload TEXT,
version TEXT NOT NULL).  `payload` is nullable, hence an `Option`. -/
structure Row where
  id : Nat
  event_type : String
  payload : Option String
  version : String

/-- The in-memory SQLite database: the table's rows (kept in rowid
order) and the next auto-assigned INTEGER PRIMARY KEY. -/
structure DB where
  rows : List Row
  nextId : Nat

def emptyDB : DB := ⟨[], 1⟩

/-- The INSERT of src/main.go lines 38-41: appends a new row with the
next id; never rejects or evicts anything. -/
def insertWebhook (db : DB) (et payloadText ver : String) : DB :=
  ⟨db.rows ++ [⟨db.nextId, et, some payloadText, ver⟩], db.nextId + 1⟩

/-- The outcome of `recordWebhookHandler`: `ok body db'` is HTTP 200
with Content-Type application/json, the raw request body echoed back,
and the database after the INSERT; `badRequest` is `http.Error` with
status 400 and a text/plain message. -/
inductive RecordResponse where
  | ok (body : String) (db : DB)
  | badRequest (msg : String)

/-- `recordWebhookHandler` (src/main.go lines 20-53) on a request
body, under normal database operation (the INSERT succeeds, as it does
on the open in-memory database). -/
def recordWebhook (db : DB) (body : String) : RecordResponse :=
  match unmarshalWebhookParams body with
  | none => .badRequest "Invalid JSON"
  | some wp =>
      .ok body (insertWebhook db wp.eventType (renderPayload wp.payload) wp.version)

/-- The database after serving one POST: unchanged when the handler
answered 400. -/
def applyRecord (db : DB) (body : String) : DB :=
  match recordWebhook db body with
  | .ok _ db' => db'
  | .badRequest _ => db

/-- Characters allowed after the first one in a bare JSON path
label. -/
def isAtomChar (c : Char) : Bool :=
  c.isAlphanum || c = '_'

/-- A bare JSON path label: identifier-shaped, no metacharacters. -/
def atomSeg : List Char → Bool
  | [] => false
  | c :: cs => (c.isAlpha || c = '_') && cs.all isAtomChar

/-- Split a key on the dots, as SQLite's path parser segments
`$.a.b`. -/
def splitDots : List Char → List (List Char)
  | [] => [[]]
  | c :: cs =>
      if c = '.' then [] :: splitDots cs
      else
        match splitDots cs with
        | s :: rest => (c :: s) :: rest
        | [] => [[c]]

/-- The path SQLite reads from `'$.' ++ key` when the interpolated key
stays inside the path string literal and the JSON path grammar: a
dot-separated sequence of bare labels (a key `a.b` selects member `b`
of nested object `a`).  `none` means the key is outside this
executable fragment: its text can terminate the SQL string literal,
change the placeholder count or break the path grammar, so the
row-level model asserts nothing about it (the text-level model
`buildQuerySQL` still applies). -/
def pathSegsOf (key : String) : Option (List String) :=
  let segs := splitDots key.data
  if segs.all atomSeg then some (segs.map List.asString) else none

/-- A key that SQLite treats as one flat object member name. -/
def identKey (k : String) : Bool :=
  decide (pathSegsOf k = some [k])

/-- `json_extract`'s descent along a parsed path: each label selects
an object member; a missing member or a non-object step yields SQL
NULL. -/
def pathExtract : Json → List String → Option Json
  | j, [] => some j
  | j, seg :: rest =>
      match j with
      | .obj fs =>
          match lookupField fs seg with
          | some v => pathExtract v rest
          | none => none
      | _ => none

/-- `CAST(json_extract(payload, '$.key') AS TEXT)` evaluated on the
parsed payload document, for a key in the executable fragment: `none`
is SQL NULL, produced when the path selects nothing or selects a JSON
null. -/
def sqlExtract (j : Json) (key : String) : Option String :=
  match pathSegsOf key with
  | none => none
  | some segs =>
      match pathExtract j segs with
      | none => none
      | some .null => none
      | some v => some (castJsonText v)

/-- The generated WHERE clause evaluated on one row:
`event_type = ?` first; each filter clause compares the extracted cast
text with the parameter (a comparison with SQL NULL is not true).
`none` models a SQLite evaluation error: `json_extract` applied to
malformed payload text.  With no filters no `json_extract` appears and
the payload text is never touched. -/
def rowSqlPred (row : Row) (et : String) (filters : List (String × String)) : Option Bool :=
  if row.event_type = et then
    if filters = [] then some true
    else
      match row.payload with
      | none => some false
      | some s =>
          match parseJson s with
          | none => none
          | some j =>
              some (filters.all fun kv => decide (sqlExtract j kv.1 = some kv.2))
  else some false

/-- All filter keys lie in the executable fragment, so the generated
SQL is exactly the well-formed query with one placeholder per clause
and the row-level semantics above. -/
def modeledFilters (filters : List (String × String)) : Bool :=
  filters.all fun kv => (pathSegsOf kv.1).isSome

/-- Stable insertion into a list sorted by ascending id. -/
def insertRowById (r : Row) : List Row → List Row
  | [] => [r]
  | x :: xs => if r.id ≤ x.id then r :: x :: xs else x :: insertRowById r xs

/-- `ORDER BY id` (ascending, SQLite's default direction). -/
def sortById : List Row → List Row
  | [] => []
  | r :: rs => insertRowById r (sortById rs)

/-- The outcome of running the generated SELECT: the matching rows,
or a query error that the handler maps to a 500. -/
inductive SqlResult where
  | ok (rs : List Row)
  | error

/-- `db.QueryContext` on the generated SELECT (src/main.go lines
67-91), for filters in the executable fragment: the matching rows in
ascending id order, or an error when a row's WHERE clause hits
malformed payload text.  For filters outside the fragment (`none`),
the executed SQL is a different query altogether (cf. `buildQuerySQL`
and `countPlaceholders`) and this row-level model asserts nothing. -/
def sqlExec (db : DB) (et : String) (filters : List (String × String)) : Option SqlResult :=
  if modeledFilters filters = true then
    if db.rows.all (fun r => (rowSqlPred r et filters).isSome) = true then
      some (SqlResult.ok (sortById (db.rows.filter fun r =>
        decide (rowSqlPred r et filters = some true))))
    else some SqlResult.error
  else none

/-- One iteration of the result loop (src/main.go lines 95-113):
`rows.Scan` fails on a NULL payload column (it cannot scan into a Go
string), and `json.Unmarshal` of the payload text into a
`map[string]any` fails unless the text is an object (or null, which
leaves the map nil); either failure hits a `continue` and drops the
row. -/
def decodeRow (row : Row) : Option WebhookParams :=
  match row.payload with
  | none => none
  | some s =>
      match parseJson s with
      | some (.obj fs) => some ⟨row.event_type, some fs, row.version⟩
      | some .null => some ⟨row.event_type, none, row.version⟩
      | _ => none

/-- The whole result loop: decodable rows, in row order. -/
def processRows (rows : List Row) : List WebhookParams :=
  rows.filterMap decodeRow

/-- `json.Marshal` of one `WebhookParams` value: struct fields in
declaration order under their tags. -/
def encodeRecord (wp : WebhookParams) : String :=
  "\x7b\x22event\x22:" ++ renderJson (.str wp.eventType) ++
    ",\x22data\x22:" ++ renderPayload wp.payload ++
    ",\x22version\x22:" ++ renderJson (.str wp.version) ++ "\x7d"

def encodeRecordList : List WebhookParams → String
  | [] => ""
  | [w] => encodeRecord w
  | w :: x :: ws => encodeRecord w ++ "," ++ encodeRecordList (x :: ws)

/-- `json.NewEncoder(w).Encode(webhooks)` (src/main.go line 116): the
slice is nil exactly when the loop appended nothing, and a nil slice
encodes as the JSON literal `null`; the encoder appends a newline. -/
def encodeWebhooks (l : List WebhookParams) : String :=
  (match l with
    | [] => "null"
    | _ => "[" ++ encodeRecordList l ++ "]") ++ "\n"

/-- The outcome of `queryWebhookHandler`: `ok body` is HTTP 200 with
Content-Type application/json; `badRequest` is status 400
("Event type is required"); `serverError` is status 500
("Database query failed"). -/
inductive QueryResponse where
  | ok (body : String)
  | badRequest (msg : String)
  | serverError (msg : String)

/-- The records the query pipeline delivers (SQL filtering plus the
row-decoding loop), before response encoding; `none` when the query
errors or the filters are outside the executable fragment. -/
def queryRecords (db : DB) (et : String) (filters : List (String × String)) : Option (List WebhookParams) :=
  match sqlExec db et filters with
  | some (.ok rows) => some (processRows rows)
  | _ => none

/-- `queryWebhookHandler` (src/main.go lines 55-118): 400 on an empty
path-extracted event type, 500 on a database query error, otherwise
200 with the encoded result slice.  `none` when the filters are
outside the executable fragment, where the handler's behaviour follows
the injected SQL text instead (cf. `buildQuerySQL`). -/
def queryWebhook (db : DB) (et : String) (filters : List (String × String)) : Option QueryResponse :=
  if et = "" then some (.badRequest "Event type is required")
  else
    match sqlExec db et filters with
    | none => none
    | some .error => some (.serverError "Database query failed")
    | some (.ok rows) => some (.ok (encodeWebhooks (processRows rows)))

/-- The literal SELECT prelude of src/main.go lines 67-70 (a Go raw
string literal; its exact indentation whitespace is immaterial to
every statement below, which only compares whole generated texts). -/
def baseQuerySQL : String :=
  "SELECT id, event_type, payload, version FROM webhook_params WHERE event_type = ?"

/-- The per-parameter clause of src/main.go line 79:
`fmt.Sprintf(" AND CAST(json_extract(payload, '$.%s') AS TEXT) = ?", key)`
— the key is interpolated verbatim, with no escaping or quoting. -/
def filterClauseSQL (key : String) : String :=
  " AND CAST(json_extract(payload, '$." ++ key ++ "') AS TEXT) = ?"

def filterClausesSQL : List (String × String) → String
  | [] => ""
  | kv :: fs => filterClauseSQL kv.1 ++ filterClausesSQL fs

/-- The complete SQL text `queryWebhookHandler` executes for the given
filters (each URL parameter contributes its clause; src/main.go lines
72-84). -/
def buildQuerySQL (filters : List (String × String)) : String :=
  baseQuerySQL ++ filterClausesSQL filters ++ " ORDER BY id"

/-- The positional arguments bound to the `?` placeholders: the event
type, then each parameter's first value (src/main.go lines 72-80). -/
def buildQueryArgs (et : String) (filters : List (String × String)) : List String :=
  et :: filters.map fun kv => kv.2

def bLog (n : Nat) : String :=
  "\x7b\x22event\x22:\x22log\x22,\x22data\x22:\x7b\x22seq\x22:" ++ toString n ++
    "\x7d,\x22version\x22:\x221\x22\x7d"

def wpLog (n : Int) : WebhookParams := ⟨"log", some [("seq", Json.num n)], "1"⟩

def dbLog2 : DB := applyRecord (applyRecord emptyDB (bLog 1)) (bLog 2)

def dbLog3 : DB := applyRecord dbLog2 (bLog 3)

def bAmount : String :=
  "\x7b\x22event\x22:\x22order\x22,\x22data\x22:\x7b\x22amount\x22:100\x7d,\x22version\x22:\x221\x22\x7d"

def dbAmount : DB := applyRecord emptyDB bAmount

def wpAmount : WebhookParams := ⟨"order", some [("amount", Json.num 100)], "1"⟩

def bNested : String :=
  "\x7b\x22event\x22:\x22e\x22,\x22data\x22:\x7b\x22a\x22:\x7b\x22b\x22:5\x7d\x7d,\x22version\x22:\x221\x22\x7d"

def dbNested : DB := applyRecord emptyDB bNested

def wpNested : WebhookParams := ⟨"e", some [("a", Json.obj [("b", Json.num 5)])], "1"⟩

def badRow : Row := ⟨1, "e", some "not json", "v"⟩

/-- A filter key that closes the JSON-path string literal and smuggles
a second clause into the generated SQL. -/
def injKey : String := "a') AS TEXT) = ? AND CAST(json_extract(payload, '$.b"

/- Helper lemmas (shared; not tied to any one claim). -/

theorem mem_insertRowById {a r : Row} {l : List Row} :
    a ∈ insertRowById r l ↔ a = r ∨ a ∈ l := by
  induction l with
  | nil => simp [insertRowById]
  | cons x xs ih =>
      by_cases h : r.id ≤ x.id
      · simp [insertRowById, h]
      · simp [insertRowById, h, ih]
        tauto

theorem mem_sortById {a : Row} {l : List Row} : a ∈ sortById l ↔ a ∈ l := by
  induction l with
  | nil => simp [sortById]
  | cons x xs ih => simp [sortById, mem_insertRowById, ih]

/-- C1: the claim says that for every capacity C, a sequence of C+k
Pushes leaves exactly the last C records, the oldest being overwritten
once the store is full.  The store the code actually uses has no
capacity at all: every INSERT appends a fresh row, so after two Pushes
(claimed bound C = 1) both records are still present and queryable, in
insertion order — nothing is ever overwritten and the table grows
without bound. -/
theorem insert_never_evicts :
    (∀ (db : DB) (et p v : String),
        (insertWebhook db et p v).rows.length = db.rows.length + 1)
    ∧ dbLog2.rows.length = 2
    ∧ queryRecords dbLog2 "log" [] = some [wpLog 1, wpLog 2] :=
  ⟨fun db et p v => by simp [insertWebhook], rfl, rfl⟩

/-- C2: the claim says Query returns results newest-first (strictly
decreasing insertion order), so pushing r1, r2, r3 of one type and
querying it returns [r3, r2, r1].  The code sorts with `ORDER BY id`
— ascending — so the same experiment returns the records oldest-first:
[r1, r2, r3], which differs from the claimed order. -/
theorem query_orders_oldest_first :
    queryRecords dbLog3 "log" [] = some [wpLog 1, wpLog 2, wpLog 3]
    ∧ [wpLog 1, wpLog 2, wpLog 3] ≠ [wpLog 3, wpLog 2, wpLog 1] :=
  ⟨rfl, by simp [wpLog]⟩

/-- C3 (counterexample): the claim says an empty result serializes as
the JSON array `[]`.  The handler declares `var webhooks
[]WebhookParams` (a nil slice), appends nothing when no row matches,
and `json.NewEncoder(...).Encode` renders a nil slice as the JSON
literal `null` — so querying the empty store answers 200 with body
"null\n", not "[]". -/
theorem empty_query_encodes_null :
    queryWebhook emptyDB "x" [] = some (QueryResponse.ok "null\n")
    ∧ ("null\n" : String) ≠ "[]" ∧ ("null\n" : String) ≠ "[]\n" :=
  ⟨rfl, by decide, by decide⟩

/-- C3 (amended): when no stored record matches — in particular on the
empty store — and the generated SQL executes (filter keys inside the
executable fragment; a metacharacter key can instead corrupt the SQL
and draw a 500, cf. the C10 theorem), the query handler still answers
200, with the empty sequence serialized as the JSON literal `null`
rather than `[]`. -/
theorem empty_result_ok_null :
    ∀ (db : DB) (et : String) (filters : List (String × String)) (rows : List Row),
      et ≠ "" → sqlExec db et filters = some (SqlResult.ok rows) → processRows rows = [] →
      queryWebhook db et filters = some (QueryResponse.ok "null\n") := by
  intro db et filters rows het hse hpr
  unfold queryWebhook
  rw [if_neg het, hse]
  show some (QueryResponse.ok (encodeWebhooks (processRows rows))) = _
  rw [hpr]
  rfl

theorem empty_result_ok_null_witness :
    queryWebhook emptyDB "x" [] = some (QueryResponse.ok "null\n") :=
  empty_result_ok_null emptyDB "x" [] [] (by decide) rfl rfl

/-- C9: a stored row the result loop cannot decode — its payload
column is NULL so `rows.Scan` into a Go string fails, or its payload
text does not unmarshal into a map — is silently dropped: the loop
`continue`s, no error is reported, and the response is exactly the one
computed without that row, so the result can hold fewer records than
matched the SQL query. -/
theorem undecodable_row_skipped :
    ∀ (pre post : List Row) (row : Row),
      decodeRow row = none →
      processRows (pre ++ row :: post) = processRows (pre ++ post)
      ∧ (processRows (pre ++ row :: post)).length ≤ (pre ++ row :: post).length := by
  intro pre post row h
  constructor
  · unfold processRows
    rw [List.filterMap_append, List.filterMap_append, List.filterMap_cons_none h]
  · exact List.length_filterMap_le _ _

theorem undecodable_row_skipped_witness :
    processRows ([] ++ badRow :: []) = processRows ([] ++ [])
    ∧ (processRows ([] ++ badRow :: [])).length ≤ ([] ++ badRow :: []).length :=
  undecodable_row_skipped [] [] badRow rfl

/-- C10: each filter key is interpolated verbatim and unescaped into
the executed SQL text (first conjunct), so the mapping from filter
sets to executed queries is not injective: the single filter whose key
is `injKey` (which contains a quote that closes the JSON-path literal)
generates character-for-character the same SQL as the two innocent
filters on keys "a" and "b" — while binding one argument where that
query has two placeholders, so the executed query is changed and, run
by SQLite, fails with a parameter-count error instead of implementing
field-equality matching on the literal key. -/
theorem filter_key_injected_verbatim :
    (∀ k v : String, buildQuerySQL [(k, v)] =
        baseQuerySQL ++ (" AND CAST(json_extract(payload, '$." ++ k ++ "') AS TEXT) = ?")
          ++ " ORDER BY id")
    ∧ buildQuerySQL [(injKey, "v")] = buildQuerySQL [("a", "x"), ("b", "y")]
    ∧ (buildQueryArgs "t" [(injKey, "v")]).length
        ≠ (buildQueryArgs "t" [("a", "x"), ("b", "y")]).length := by
  refine ⟨?_, rfl, by decide⟩
  intro k v
  simp [buildQuerySQL, filterClausesSQL, filterClauseSQL]

/-- C4 (counterexample): the claim says Query includes a record only
if its payload contains the filter key as a payload field.  A filter
key containing a dot is interpreted by SQLite as a nested JSON path,
not a flat field name: querying with key "a.b" and value "5" returns
the record whose payload is `{"a":{"b":5}}`, although that payload has
no field named "a.b" — so a record whose payload lacks the key is
included, falsifying the claim's only-if. -/
theorem nested_path_key_matches :
    queryRecords dbNested "e" [("a.b", "5")] = some [wpNested]
    ∧ wpNested.payload = some [("a", Json.obj [("b", Json.num 5)])]
    ∧ lookupField [("a", Json.obj [("b", Json.num 5)])] "a.b" = none :=
  ⟨rfl, rfl, rfl⟩

/-- C4 (amended): for every filter entry (k, v) whose key is a plain
identifier (a single bare path label, no dots or metacharacters), a
record delivered by the query pipeline has a payload that contains k
with a non-null JSON value whose comparison text equals v exactly — so
for identifier keys a record whose payload lacks k (or holds JSON null
there, which extracts to SQL NULL) is never included: absence is never
a wildcard or default match.  A dotted key is instead read as a nested
JSON path (see the counterexample), and a metacharacter key corrupts
the generated SQL itself (see the C10 theorem). -/
theorem query_member_filter_semantics :
    ∀ (db : DB) (et : String) (filters : List (String × String)) (rs : List WebhookParams)
      (r : WebhookParams) (k v : String),
      queryRecords db et filters = some rs → r ∈ rs → (k, v) ∈ filters →
      identKey k = true →
      ∃ (fs : List (String × Json)) (j : Json),
        r.payload = some fs ∧ lookupField fs k = some j ∧ j ≠ Json.null
          ∧ castJsonText j = v := by
  intro db et filters rs r k v hq hr hkv hid
  have hpk : pathSegsOf k = some [k] := of_decide_eq_true hid
  unfold queryRecords at hq
  cases hse : sqlExec db et filters with
  | none =>
      rw [hse] at hq
      exact absurd hq (by simp)
  | some res =>
      rw [hse] at hq
      cases res with
      | error =>
          dsimp only at hq
          exact absurd hq (by simp)
      | ok rows =>
          dsimp only at hq
          have hrs : rs = processRows rows := by
            injection hq with h
            exact h.symm
          subst hrs
          obtain ⟨row, hrowmem, hdec⟩ := List.mem_filterMap.mp hr
          unfold sqlExec at hse
          by_cases hmf : modeledFilters filters = true
          case neg =>
              rw [if_neg hmf] at hse
              exact absurd hse (by simp)
          case pos =>
              rw [if_pos hmf] at hse
              by_cases hall : db.rows.all (fun r => (rowSqlPred r et filters).isSome) = true
              case neg =>
                  rw [if_neg hall] at hse
                  exact absurd hse (by simp)
              case pos =>
                  rw [if_pos hall] at hse
                  injection hse with hse
                  injection hse with hse
                  subst hse
                  have h2 : row ∈ db.rows.filter
                      (fun r => decide (rowSqlPred r et filters = some true)) :=
                    mem_sortById.mp hrowmem
                  have hpred : rowSqlPred row et filters = some true :=
                    of_decide_eq_true (List.mem_filter.mp h2).2
                  have hfne : filters ≠ [] := by
                    intro h
                    subst h
                    cases hkv
                  unfold rowSqlPred at hpred
                  by_cases hev : row.event_type = et
                  case neg =>
                      rw [if_neg hev] at hpred
                      exact absurd hpred (by simp)
                  case pos =>
                      rw [if_pos hev, if_neg hfne] at hpred
                      cases hpay : row.payload with
                      | none =>
                          rw [hpay] at hpred
                          exact absurd hpred (by simp)
                      | some s =>
                          rw [hpay] at hpred
                          dsimp only at hpred
                          cases hpj : parseJson s with
                          | none =>
                              rw [hpj] at hpred
                              exact absurd hpred (by simp)
                          | some j =>
                              rw [hpj] at hpred
                              dsimp only at hpred
                              have hallf : filters.all
                                  (fun kv => decide (sqlExtract j kv.1 = some kv.2)) = true := by
                                injection hpred
                              have hext : sqlExtract j k = some v :=
                                of_decide_eq_true (List.all_eq_true.mp hallf (k, v) hkv)
                              unfold decodeRow at hdec
                              rw [hpay] at hdec
                              dsimp only at hdec
                              rw [hpj] at hdec
                              unfold sqlExtract at hext
                              rw [hpk] at hext
                              dsimp only [pathExtract] at hext
                              cases j with
                              | str s' => simp at hext
                              | num n => simp at hext
                              | dec m e => simp at hext
                              | bool b => simp at hext
                              | null => simp at hext
                              | arr xs => simp at hext
                              | obj fs =>
                                  dsimp only at hdec
                                  have hr' : r = ⟨row.event_type, some fs, row.version⟩ := by
                                    injection hdec with h
                                    exact h.symm
                                  subst hr'
                                  dsimp only at hext
                                  cases hlk : lookupField fs k with
                                  | none =>
                                      rw [hlk] at hext
                                      exact absurd hext (by simp)
                                  | some jv =>
                                      rw [hlk] at hext
                                      cases jv with
                                      | null => simp [pathExtract] at hext
                                      | str s' =>
                                          refine ⟨fs, .str s', rfl, hlk, by simp, ?_⟩
                                          simp [pathExtract] at hext
                                          exact hext
                                      | num n =>
                                          refine ⟨fs, .num n, rfl, hlk, by simp, ?_⟩
                                          simp [pathExtract] at hext
                                          exact hext
                                      | dec m e =>
                                          refine ⟨fs, .dec m e, rfl, hlk, by simp, ?_⟩
                                          simp [pathExtract] at hext
                                          exact hext
                                      | bool b =>
                                          refine ⟨fs, .bool b, rfl, hlk, by simp, ?_⟩
                                          simp [pathExtract] at hext
                                          exact hext
                                      | arr xs =>
                                          refine ⟨fs, .arr xs, rfl, hlk, by simp, ?_⟩
                                          simp [pathExtract] at hext
                                          exact hext
                                      | obj fs' =>
                                          refine ⟨fs, .obj fs', rfl, hlk, by simp, ?_⟩
                                          simp [pathExtract] at hext
                                          exact hext

theorem query_member_filter_semantics_witness :
    ∃ (fs : List (String × Json)) (j : Json),
      wpAmount.payload = some fs ∧ lookupField fs "amount" = some j ∧ j ≠ Json.null
        ∧ castJsonText j = "100" :=
  query_member_filter_semantics dbAmount "order" [("amount", "100")] [wpAmount] wpAmount
    "amount" "100" rfl (by simp) (by simp) (by decide)

end WebhookEcho
